import Mathlib

/-!
Verification development for the vuln-list-tuxcare repository.

The two source programs embedded here are `cve_converter.py` (OS-name
normalisation and the idempotent JSON writer) and `get-cve.py` (the
multi-source CVE resolver and record loader).  Pure functions are embedded
as Lean functions over `String`/`List`; the filesystem is embedded as an
explicit value (`FS` for the resolver, an association list of files for the
writer), and every filesystem access the Python code performs
(`os.path.exists`, `os.listdir`, `os.walk`, `open`) is recorded as an
explicit event so that claims about "which roots are touched" are
statements about the event trace.  Fallible Python code (exceptions such as
`IndexError`, `KeyError`, `json.JSONDecodeError`) is embedded with
`Option`.

Strings in the programs are ASCII; `str.upper` / `str.lower` are embedded
by their ASCII action (CPython applies the same case mapping on this
range).
-/

namespace VulnList

/-! ### Python string primitives -/

/-- ASCII action of Python `str.upper` on one character. -/
def charUp (c : Char) : Char :=
  if 97 ≤ c.toNat ∧ c.toNat ≤ 122 then Char.ofNat (c.toNat - 32) else c

/-- ASCII action of Python `str.lower` on one character. -/
def charDown (c : Char) : Char :=
  if 65 ≤ c.toNat ∧ c.toNat ≤ 90 then Char.ofNat (c.toNat + 32) else c

/-- Python `s.upper()` (ASCII range). -/
def pyUpper (s : String) : String := ⟨s.data.map charUp⟩

/-- Python `s.lower()` (ASCII range). -/
def pyLower (s : String) : String := ⟨s.data.map charDown⟩

/-- Holds when `needle` is a leading segment of `hay` (Python `str.startswith`, on
character lists). -/
def listStarts : List Char → List Char → Bool
  | [], _ => true
  | _ :: _, [] => false
  | a :: as, b :: bs => a == b && listStarts as bs

/-- Python `pre in s` would be `listHasSub`; here: `s.startswith(pre)`. -/
def strStarts (pre s : String) : Bool := listStarts pre.data s.data

/-- Holds when `needle` occurs as a contiguous run inside the list
(Python `needle in hay` for strings). -/
def listHasSub (needle : List Char) : List Char → Bool
  | [] => needle.isEmpty
  | b :: bs => listStarts needle (b :: bs) || listHasSub needle bs

/-- Python `sub in s` (substring containment). -/
def containsSub (s sub : String) : Bool := listHasSub sub.data s.data

/-- Python `s.split(sep)` for a one-character separator, on character
lists.  `"CVE-".split("-") == ["CVE", ""]`. -/
def splitOnChar (sep : Char) : List Char → List (List Char)
  | [] => [[]]
  | a :: as =>
    let r := splitOnChar sep as
    if a == sep then [] :: r
    else
      match r with
      | [] => [[a]]
      | h :: t => (a :: h) :: t

/-- Python whitespace for `str.split()` with no argument. -/
def pyIsSpace (c : Char) : Bool :=
  c == ' ' || c == '\t' || c == '\n' || c == '\r' || c == '\x0b' || c == '\x0c'

/-- Worker for Python `s.split()`: splits on runs of whitespace and drops
empty pieces; `acc` holds the current word reversed. -/
def splitWsGo : List Char → List Char → List (List Char)
  | [], acc => if acc.isEmpty then [] else [acc.reverse]
  | c :: cs, acc =>
    if pyIsSpace c then
      if acc.isEmpty then splitWsGo cs []
      else acc.reverse :: splitWsGo cs []
    else splitWsGo cs (c :: acc)

/-- Python `s.split()` (no separator argument). -/
def pySplit (s : String) : List String := (splitWsGo s.data []).map fun l => ⟨l⟩

/-- Python `s[:4]`. -/
def pyTake4 (s : String) : String := ⟨s.data.take 4⟩

/-! ### `cve_converter.py`, `parse_os_name` (lines 9–35)

Embedded with `Option`: `none` is the `IndexError` the Python raises when a
branch reads a token that is not there (`parts[0]` on an empty split in the
final branch, `parts[2]` in the CentOS Stream branch). -/

/-- Embedding of `parse_os_name` from `cve_converter.py`.  Splits the OS name on
whitespace; the CentOS-Stream and Oracle-Linux shapes are special-cased,
everything else takes the first three tokens with missing trailing tokens
becoming `""`. -/
def parse_os_name (osName : String) : Option (String × String × String) :=
  match pySplit osName with
  | "CentOS" :: "Stream" :: rest =>
    -- distro = parts[0]; version = parts[1] + parts[2] (parts[2] unguarded:
    -- IndexError when there is no third token); variant = parts[3] if present
    match rest with
    | p2 :: rest2 => some ("CentOS", "Stream" ++ p2, rest2.headD "")
    | [] => none
  | "Oracle" :: "Linux" :: rest =>
    some ("OracleLinux", rest.headD "", (rest.drop 1).headD "")
  | p0 :: rest =>
    some (p0, rest.headD "", (rest.drop 1).headD "")
  | [] => none  -- parts[0] on an empty token list: IndexError

/-! ### `get-cve.py`, the resolver's filesystem model

Paths are written relative to `repo_root` and joined with `/` (as
`os.path.join` does for the relative components the script builds).  A
parsed JSON file is abstracted to the two shapes `find_cve_file` inspects:
the `Advisory.Identifiers` list of a GHSA advisory and the `secfixes`
mapping of an Alpine-style record. -/

/-- One element of a GHSA advisory's `Identifiers` list; `.get "Type"` /
`.get "Value"` can be absent, hence `Option`. -/
structure Identifier where
  typ : Option String
  val : Option String
deriving DecidableEq

/-- What `find_cve_file` can see in a parsed JSON document:
`identifiers` is `some l` exactly when `"Advisory" in data` and
`"Identifiers" in data["Advisory"]`; `secfixes` is `some m` exactly when
`"secfixes" in data` (a list of `(version, cve list)` pairs in dict
order). -/
structure JsonData where
  identifiers : Option (List Identifier)
  secfixes : Option (List (String × List String))
deriving DecidableEq

/-- Result of `json.load` on one file: `none` embeds
`json.JSONDecodeError` / `IOError`. -/
abbrev JsonResult := Option JsonData

/-- One entry of `os.listdir` on the `ghsa` base: a subdirectory carries
its `glob("**/*.json", recursive=True)` results in glob order (path
relative to the ecosystem directory, with parse result); a plain file is
skipped by the `os.path.isdir` check. -/
inductive GhsaEntry where
  | dir (name : String) (files : List (String × JsonResult))
  | nondir (name : String)
deriving DecidableEq

/-- A version-keyed root (`alpine`, `amazon`, `oracle`, `photon`,
`redhat`, `suse`) that exists on disk: its files in `os.walk` order, each
as (path relative to the root, parse result). -/
structure SourceRoot where
  name : String
  files : List (String × JsonResult)
deriving DecidableEq

/-- The filesystem state `find_cve_file` runs against.
`direct` holds the flat-keyed files (`nvd/<year>/<id>.json` and the like)
as (joined path, parse result); `ghsa` is `some entries` exactly when the
`ghsa` base directory exists; `others` holds the version-keyed roots that
exist. -/
structure FS where
  direct : List (String × JsonResult)
  ghsa : Option (List GhsaEntry)
  others : List SourceRoot
deriving DecidableEq

/-- A filesystem access performed by the resolver: `probe` is
`os.path.exists` / `os.path.isdir`, `listdir` is `os.listdir` (the glob
and walk enumerations are folded into the per-root listing events), and
`readF` is `open` + `json.load` on one candidate file. -/
inductive FsEvent where
  | probe (p : String)
  | listdir (p : String)
  | walk (p : String)
  | readF (p : String)
deriving DecidableEq

/-- Association-list lookup (a Python `dict`/path lookup with `=` on
keys). -/
def slookup {α : Type} : List (String × α) → String → Option α
  | [], _ => none
  | (k, v) :: rest, p => if k = p then some v else slookup rest p

/-- Boolean membership with `=` (Python `in` on a list of strings). -/
def memB : List String → String → Bool
  | [], _ => false
  | x :: xs, p => if x = p then true else memB xs p

/-! ### `get-cve.py`, `find_cve_file` (lines 9–97)

The embedding returns both the Python return value and the trace of
filesystem accesses, in order. -/

/-- Lines 16–27: uppercase the query, require the `CVE-` name head, pull
the year out as `cve_id.split("-")[1]`.  `none` is the early
`return None` (the second alternative of the inner match embeds the
`except IndexError` arm, unreachable once the string starts with
`CVE-`). -/
def idNorm (raw : String) : Option (String × String) :=
  let u := pyUpper raw
  if strStarts "CVE-" u then
    match splitOnChar '-' u.data with
    | _ :: y :: _ => some (u, ⟨y⟩)
    | _ => none
  else none

/-- Short-circuit sequencing of two searches: the second runs only when
the first found nothing, and its events are appended. -/
def andThen (a : Option String × List FsEvent)
    (b : Unit → Option String × List FsEvent) : Option String × List FsEvent :=
  match a with
  | (some p, es) => (some p, es)
  | (none, es) => let r := b (); (r.1, es ++ r.2)

/-- Test `source is None or source.lower() == name`. -/
def sourceIs (source : Option String) (name : String) : Bool :=
  match source with
  | none => true
  | some s => pyLower s == name

/-- One flat-keyed root check (lines 31–47): a single existence probe of
`<root>/<year>/<cve_id>.json` when the root is active under the filter. -/
def tryDirect (fs : FS) (active : Bool) (root year cveId : String) :
    Option String × List FsEvent :=
  if active then
    let p := root ++ "/" ++ year ++ "/" ++ cveId ++ ".json"
    if (slookup fs.direct p).isSome then (some p, [.probe p])
    else (none, [.probe p])
  else (none, [])

/-- Lines 62–64: the advisory matches when some entry of
`data["Advisory"]["Identifiers"]` has `Type == "CVE"` and
`Value == cve_id`. -/
def ghsaFileMatch (d : JsonData) (cveId : String) : Bool :=
  match d.identifiers with
  | some ids => ids.any fun i => i.typ == some "CVE" && i.val == some cveId
  | none => false

/-- Lines 57–67: scan one ecosystem directory's glob results; each file is
opened; malformed files are warned about and skipped. -/
def searchGhsaFiles (ecoPath cveId : String) :
    List (String × JsonResult) → Option String × List FsEvent
  | [] => (none, [])
  | (rel, content) :: rest =>
    let fp := ecoPath ++ "/" ++ rel
    match content with
    | none => andThen (none, [.readF fp]) fun _ => searchGhsaFiles ecoPath cveId rest
    | some d =>
      if ghsaFileMatch d cveId then (some fp, [.readF fp])
      else andThen (none, [.readF fp]) fun _ => searchGhsaFiles ecoPath cveId rest

/-- Lines 53–67: iterate `os.listdir(ghsa_base)`; each entry gets an
`os.path.isdir` probe; directories are scanned recursively. -/
def searchGhsaEntries (cveId : String) :
    List GhsaEntry → Option String × List FsEvent
  | [] => (none, [])
  | .nondir n :: rest =>
    andThen (none, [.probe ("ghsa/" ++ n)]) fun _ => searchGhsaEntries cveId rest
  | .dir n files :: rest =>
    andThen (andThen (none, [.probe ("ghsa/" ++ n)]) fun _ =>
      searchGhsaFiles ("ghsa/" ++ n) cveId files) fun _ =>
      searchGhsaEntries cveId rest

/-- Lines 49–67: the GHSA step; `os.path.exists(ghsa_base)` is one probe,
the listing is one `listdir` event. -/
def tryGhsa (fs : FS) (active : Bool) (cveId : String) :
    Option String × List FsEvent :=
  if active then
    match fs.ghsa with
    | none => (none, [.probe "ghsa"])
    | some entries =>
      andThen (none, [.probe "ghsa", .listdir "ghsa"]) fun _ =>
        searchGhsaEntries cveId entries
  else (none, [])

/-- Lines 87–90: an Alpine-style record matches when the queried id is in
some version's CVE list of `data["secfixes"]`. -/
def secfixesMatch (d : JsonData) (cveId : String) : Bool :=
  match d.secfixes with
  | some m => m.any fun vc => memB vc.2 cveId
  | none => false

/-- Lines 79–94: walk one version-keyed root; only `.json` files are
opened, malformed ones are warned about and skipped. -/
def searchWalkFiles (base cveId : String) :
    List (String × JsonResult) → Option String × List FsEvent
  | [] => (none, [])
  | (rel, content) :: rest =>
    if rel.endsWith ".json" then
      let fp := base ++ "/" ++ rel
      match content with
      | none => andThen (none, [.readF fp]) fun _ => searchWalkFiles base cveId rest
      | some d =>
        if secfixesMatch d cveId then (some fp, [.readF fp])
        else andThen (none, [.readF fp]) fun _ => searchWalkFiles base cveId rest
    else searchWalkFiles base cveId rest

/-- Lines 75–94: for each candidate directory name, probe
`os.path.exists(source_base)` and, when present, walk it. -/
def searchOthers (fs : FS) (cveId : String) :
    List String → Option String × List FsEvent
  | [] => (none, [])
  | n :: rest =>
    andThen
      (match fs.others.find? (fun r => r.name == n) with
       | none => (none, [.probe n])
       | some root =>
         andThen (none, [.probe n, .walk n]) fun _ =>
           searchWalkFiles n cveId root.files)
      fun _ => searchOthers fs cveId rest

/-- The six version-keyed source names of lines 70 and 75. -/
def versionKeyedNames : List String :=
  ["alpine", "amazon", "oracle", "photon", "redhat", "suse"]

/-- Lines 70–94: the version-keyed step runs when there is no filter or
the filter names one of the six roots; with a filter only that one
directory is tried. -/
def tryOthers (fs : FS) (source : Option String) (cveId : String) :
    Option String × List FsEvent :=
  let active := match source with
    | none => true
    | some s => memB versionKeyedNames (pyLower s)
  if active then
    let dirs := match source with
      | some s => [pyLower s]
      | none => versionKeyedNames
    searchOthers fs cveId dirs
  else (none, [])

/-- Embedding of `find_cve_file` from `get-cve.py` (lines 9–97): validate and
normalise the query, then try the roots in source order — `nvd`,
`ubuntu`, `debian`, `ghsa`, then the version-keyed roots — returning the
first hit.  The second component is the trace of filesystem accesses. -/
def find_cve_file (fs : FS) (cveIdArg : String) (source : Option String) :
    Option String × List FsEvent :=
  match idNorm cveIdArg with
  | none => (none, [])
  | some (cveId, year) =>
    andThen (tryDirect fs (sourceIs source "nvd") "nvd" year cveId) fun _ =>
    andThen (tryDirect fs (sourceIs source "ubuntu") "ubuntu" year cveId) fun _ =>
    andThen (tryDirect fs (sourceIs source "debian") "debian" year cveId) fun _ =>
    andThen (tryGhsa fs (sourceIs source "ghsa") cveId) fun _ =>
    tryOthers fs source cveId

/-- A filesystem with nothing in it. -/
def emptyFS : FS := ⟨[], none, []⟩

/-! ### `get-cve.py`, `get_cve_info` (lines 99–140) -/

/-- Embedding of `os.path.dirname` for the relative slash-joined paths the scripts
build. -/
def dirName (p : String) : String :=
  String.intercalate "/" (((splitOnChar '/' p.data).map fun l => (⟨l⟩ : String)).dropLast)

/-- Embedding of `os.path.basename` for the same paths. -/
def baseName (p : String) : String :=
  ((splitOnChar '/' p.data).map fun l => (⟨l⟩ : String)).getLastD ""

/-- Lines 115–136: the provenance label, chosen by testing the resolved
path for each source-root name as a substring, in source order; the
Alpine label splices the two directory levels above the file in. -/
def sourceLabel (fp : String) : String :=
  if containsSub fp "nvd" then "NVD (National Vulnerability Database)"
  else if containsSub fp "ghsa" then "GHSA (GitHub Security Advisory)"
  else if containsSub fp "alpine" then
    "Alpine Linux (" ++ baseName (dirName (dirName fp)) ++ "/" ++ baseName (dirName fp) ++ ")"
  else if containsSub fp "debian" then "Debian Linux"
  else if containsSub fp "ubuntu" then "Ubuntu Linux"
  else if containsSub fp "amazon" then "Amazon Linux"
  else if containsSub fp "oracle" then "Oracle Linux"
  else if containsSub fp "photon" then "VMware Photon OS"
  else if containsSub fp "redhat" then "Red Hat Linux"
  else if containsSub fp "suse" then "SUSE Linux"
  else "Unknown Source"

/-- Re-open a path the resolver returned: look it up in whichever zone of
the filesystem holds it.  The outer `none` is a missing file (`IOError`),
`some none` a parse failure. -/
def fsReadJson (fs : FS) (p : String) : Option JsonResult :=
  match slookup fs.direct p with
  | some r => some r
  | none =>
    let inGhsa := (fs.ghsa.getD []).foldr
      (fun e acc =>
        match e with
        | .dir n files =>
          match slookup (files.map fun f => ("ghsa/" ++ n ++ "/" ++ f.1, f.2)) p with
          | some r => some r
          | none => acc
        | .nondir _ => acc)
      none
    match inGhsa with
    | some r => some r
    | none =>
      fs.others.foldr
        (fun root acc =>
          match slookup (root.files.map fun f => (root.name ++ "/" ++ f.1, f.2)) p with
          | some r => some r
          | none => acc)
        none

/-- Embedding of `get_cve_info` from `get-cve.py` (lines 99–140): resolve, open and
parse the file, and return the parsed data together with the `_source`
provenance value the function inserts.  `none` covers the not-found and
read/parse-failure exits. -/
def get_cve_info (fs : FS) (cveId : String) (source : Option String) :
    Option (JsonData × String) :=
  match (find_cve_file fs cveId source).1 with
  | none => none
  | some fp =>
    match fsReadJson fs fp with
    | some (some d) => some (d, sourceLabel fp)
    | _ => none

/-! ### `cve_converter.py`, `create_json_files` (lines 51–124)

The writer's filesystem is an association list of text files.  An upstream
CSV row is an ordered field/value list (`csv.DictReader` yields dicts in
column order); `json.dumps(entry, indent=2)` is embedded for such flat
string dicts, over the Basic Multilingual Plane. -/

/-- An upstream CSV row: ordered field/value pairs. -/
abbrev Entry := List (String × String)

/-- Four upper-case hex digits for `\uXXXX` escapes. -/
def hex4 (n : Nat) : List Char :=
  let dig := fun k => if k < 10 then Char.ofNat (48 + k) else Char.ofNat (55 + k)
  [dig (n / 4096 % 16), dig (n / 256 % 16), dig (n / 16 % 16), dig (n % 16)]

/-- JSON escaping of one character as `json.dumps` does with its default
`ensure_ascii=True` (characters beyond the BMP are not modelled). -/
def jsonEscapeChar (c : Char) : List Char :=
  if c == '"' then ['\\', '"']
  else if c == '\\' then ['\\', '\\']
  else if c == '\n' then ['\\', 'n']
  else if c == '\t' then ['\\', 't']
  else if c == '\r' then ['\\', 'r']
  else if c == '\x08' then ['\\', 'b']
  else if c == '\x0c' then ['\\', 'f']
  else if c.toNat < 32 || 126 < c.toNat then '\\' :: 'u' :: hex4 c.toNat
  else [c]

/-- A JSON string literal, quotes included. -/
def jsonStr (s : String) : String :=
  "\"" ++ ⟨s.data.flatMap jsonEscapeChar⟩ ++ "\""

/-- Embedding of `json.dumps(entry, indent=2)` for a flat string-valued dict in
insertion order (`json.dumps({}, indent=2)` is the bare braces). -/
def jsonDumps (e : Entry) : String :=
  match e with
  | [] => "\x7b\x7d"
  | _ =>
    "\x7b\n" ++
      String.intercalate ",\n" (e.map fun kv => "  " ++ jsonStr kv.1 ++ ": " ++ jsonStr kv.2) ++
      "\n\x7d"

/-- Overwrite-or-create of one file (`open(path, "w")` + `write`). -/
def fsWrite : List (String × String) → String → String → List (String × String)
  | [], p, c => [(p, c)]
  | (k, v) :: rest, p, c => if k = p then (p, c) :: rest else (k, v) :: fsWrite rest p c

/-- Lines 65–82: the canonical path of one row, from its `CVE`,
`OS name` and `Last updated` fields.  `none` embeds the `KeyError` of a
missing field and the `IndexError` `parse_os_name` can raise, both of
which make the writer skip the row. -/
def entryPath (baseDir : String) (e : Entry) : Option String :=
  match slookup e "CVE", slookup e "OS name", slookup e "Last updated" with
  | some cve, some osName, some lastUpdated =>
    let year := pyTake4 lastUpdated
    match parse_os_name osName with
    | some (distro, version, variant) =>
      let dirPath :=
        if variant ≠ "" then
          String.intercalate "/" [baseDir, "tuxcare", distro, version, variant, year]
        else
          String.intercalate "/" [baseDir, "tuxcare", distro, version, year]
      some (dirPath ++ "/" ++ cve ++ ".json")
    | none => none
  | _, _, _ => none

/-- The writer's running state: the in-batch `created_files` set, the two
counters, and the filesystem. -/
structure WState where
  createdFiles : List String
  fileCount : Nat
  unchangedCount : Nat
  fs : List (String × String)
deriving DecidableEq

/-- The body of the `for entry in data` loop of `create_json_files`
(lines 63–121): skip rows whose path cannot be computed, skip paths
already written this batch, skip (counting `unchanged`) when the existing
file equals the new serialization, write otherwise.  `os.makedirs` is a
no-op in the flat file model and a read of an existing file always
succeeds. -/
def processEntry (baseDir : String) (st : WState) (e : Entry) : WState :=
  match entryPath baseDir e with
  | none => st
  | some fp =>
    if memB st.createdFiles fp then st
    else
      let newContent := jsonDumps e
      match slookup st.fs fp with
      | some existing =>
        if existing = newContent then
          { st with createdFiles := fp :: st.createdFiles,
                    unchangedCount := st.unchangedCount + 1 }
        else
          { st with createdFiles := fp :: st.createdFiles,
                    fileCount := st.fileCount + 1,
                    fs := fsWrite st.fs fp newContent }
      | none =>
        { st with createdFiles := fp :: st.createdFiles,
                  fileCount := st.fileCount + 1,
                  fs := fsWrite st.fs fp newContent }

/-- Embedding of `create_json_files` from `cve_converter.py` (lines 51–124), run over a
starting filesystem; the Python function returns `file_count`, the model
keeps the whole final state. -/
def create_json_files (data : List Entry) (baseDir : String)
    (fs0 : List (String × String)) : WState :=
  data.foldl (processEntry baseDir) ⟨[], 0, 0, fs0⟩

/-! ### Auxiliary definitions used by the claims -/

/-- Definition taken from the spec's wording (not from the code): a query
"matches the shape `CVE-<year>-<sequence>`" when it has exactly the three
dash-separated fields `CVE`, a numeric year and a numeric sequence. -/
def specCveShape (s : String) : Bool :=
  match splitOnChar '-' s.data with
  | [c, y, n] =>
    (⟨c⟩ : String) == "CVE" && !y.isEmpty && y.all Char.isDigit
      && !n.isEmpty && n.all Char.isDigit
  | _ => false

/-- Concrete filesystem holding exactly `nvd/2022/CVE-2022-1664.json`. -/
def nvdOnlyFS : FS := ⟨[("nvd/2022/CVE-2022-1664.json", some ⟨none, none⟩)], none, []⟩

/-- Filesystem whose only content is one GHSA advisory whose identifier
list contains the pair Type `"CVE"` / Value `"CVE-2021-9999"`. -/
def ghsaOnlyFS : FS :=
  ⟨[], some [.dir "npm"
      [("GHSA-abcd.json", some ⟨some [⟨some "CVE", some "CVE-2021-9999"⟩], none⟩)]], []⟩

/-- The earliest row of a batch whose canonical path is `p` (the row whose
serialization the writer leaves on disk at `p`). -/
def firstWithPath (b p : String) : List Entry → Option Entry
  | [] => none
  | e :: rest => if entryPath b e = some p then some e else firstWithPath b p rest

/-- A concrete upstream row used as a witness input. -/
def sampleRow : Entry :=
  [("CVE", "CVE-2025-0001"), ("OS name", "AlmaLinux 9.2 ESU"),
    ("Last updated", "2025-01-02")]

/-- A second concrete row with the same canonical path as `sampleRow` but
different content. -/
def sampleRow2 : Entry := sampleRow ++ [("Score", "5")]

/-! ### Helper lemmas -/

theorem charUp_charUp (c : Char) : charUp (charUp c) = charUp c := by
  unfold charUp
  by_cases h : 97 ≤ c.toNat ∧ c.toNat ≤ 122
  · simp only [if_pos h]
    obtain ⟨h1, h2⟩ := h
    generalize c.toNat = n at h1 h2
    interval_cases n <;> decide
  · simp only [if_neg h]

theorem pyUpper_idem (s : String) : pyUpper (pyUpper s) = pyUpper s := by
  unfold pyUpper
  congr 1
  rw [List.map_map]
  exact List.map_congr_left fun a _ => charUp_charUp a

theorem idNorm_upper (s : String) : idNorm (pyUpper s) = idNorm s := by
  unfold idNorm
  rw [pyUpper_idem]

/-! ### Claims about `parse_os_name` -/

/-- C2, the claim as stated is false: `parse_os_name` raises `IndexError`
(embedded as `none`) on the empty string and on the two-token input
`"CentOS Stream"` instead of returning a triplet with empty fields. -/
theorem parse_os_name_total_counterexample :
    parse_os_name "" = none ∧ parse_os_name "CentOS Stream" = none := by
  constructor <;> decide

/-- C2 (amended): `parse_os_name` returns a triplet exactly when the
whitespace token list is non-empty and, should the first two tokens be
`CentOS Stream`, a third token is present; on the empty token list and on
a bare two-token `CentOS Stream` it raises instead (`none`); missing
trailing tokens otherwise become empty strings (which the returned
triplet realises by construction). -/
theorem parse_os_name_isSome_iff (s : String) :
    (parse_os_name s).isSome = true ↔
      (pySplit s ≠ [] ∧
        ((pySplit s).take 2 = ["CentOS", "Stream"] → 3 ≤ (pySplit s).length)) := by
  unfold parse_os_name
  split
  · rename_i rest heq
    rw [heq]
    cases rest with
    | nil => simp
    | cons p2 rest2 => simp
  · rename_i rest heq
    rw [heq]
    simp
  · rename_i p0 rest hne1 hne2 heq
    rw [heq]
    simp only [Option.isSome_some, ne_eq, reduceCtorEq, not_false_eq_true, true_and, true_iff]
    intro htake
    cases rest with
    | nil => simp at htake
    | cons p1 rest' =>
      simp only [List.take_succ_cons, List.take_zero] at htake
      obtain ⟨hp0, hp1⟩ : p0 = "CentOS" ∧ p1 = "Stream" := by simpa using htake
      exact (hne1 rest' hp0 (by rw [hp1])).elim
  · rename_i heq
    rw [heq]
    simp

/-- Witness for C2's amended theorem at a concrete input. -/
theorem parse_os_name_isSome_iff_witness :
    (parse_os_name "AlmaLinux 9.2").isSome = true :=
  (parse_os_name_isSome_iff "AlmaLinux 9.2").mpr ⟨by decide, by decide⟩

/-- C3: on a three-token name that is neither a `CentOS Stream …` nor an
`Oracle Linux …` name, `parse_os_name` returns the three tokens
unchanged, and the two special cases return their documented merged
forms. -/
theorem parse_os_name_three_tokens :
    (∀ s p0 p1 p2, pySplit s = [p0, p1, p2] →
        ¬(p0 = "CentOS" ∧ p1 = "Stream") → ¬(p0 = "Oracle" ∧ p1 = "Linux") →
        parse_os_name s = some (p0, p1, p2)) ∧
      parse_os_name "CentOS Stream 8 ELS" = some ("CentOS", "Stream8", "ELS") ∧
      parse_os_name "Oracle Linux 7 ELS" = some ("OracleLinux", "7", "ELS") := by
  refine ⟨?_, by decide, by decide⟩
  intro s p0 p1 p2 hsplit hcs hol
  unfold parse_os_name
  rw [hsplit]
  split
  · rename_i rest heq
    obtain ⟨h1, h2, -⟩ : p0 = "CentOS" ∧ p1 = "Stream" ∧ [p2] = rest := by
      simpa using heq
    exact absurd ⟨h1, h2⟩ hcs
  · rename_i rest heq
    obtain ⟨h1, h2, -⟩ : p0 = "Oracle" ∧ p1 = "Linux" ∧ [p2] = rest := by
      simpa using heq
    exact absurd ⟨h1, h2⟩ hol
  · rename_i q rest hne1 hne2 heq
    obtain ⟨hq, hrest⟩ : p0 = q ∧ [p1, p2] = rest := by simpa using heq
    subst hq
    subst hrest
    rfl
  · rename_i heq
    simp at heq

/-- Witness for C3 at a concrete input. -/
theorem parse_os_name_three_tokens_witness :
    parse_os_name "AlmaLinux 9.2 ESU" = some ("AlmaLinux", "9.2", "ESU") :=
  parse_os_name_three_tokens.1 "AlmaLinux 9.2 ESU" _ _ _ (by decide)
    (by decide) (by decide)

/-! ### Claims about the resolver's input validation and case handling -/

/-- C1, the claim as stated is false: `"CVE-OOPS"` does not match the
shape `CVE-<year>-<sequence>`, yet `find_cve_file` does not reject it —
it goes on to probe the filesystem (the event trace is non-empty, with
`OOPS` used as the year directory). -/
theorem find_cve_file_reject_counterexample :
    specCveShape "CVE-OOPS" = false ∧
      (find_cve_file emptyFS "CVE-OOPS" none).2 ≠ [] := by
  constructor <;> decide

/-- C1 (amended): the resolver rejects — invalid-format error, no
location, not a single filesystem access — exactly the queries whose
uppercased form does not start with `CVE-`; queries with that head are
searched even when the remainder does not match `CVE-<year>-<sequence>`.
In particular `resolve("not-a-cve", None)` fails before touching the
filesystem. -/
theorem find_cve_file_invalid_reject :
    (∀ (fs : FS) (s : String) (source : Option String),
        strStarts "CVE-" (pyUpper s) = false →
        find_cve_file fs s source = (none, [])) ∧
      ∀ fs : FS, find_cve_file fs "not-a-cve" none = (none, []) := by
  have h1 : ∀ (fs : FS) (s : String) (source : Option String),
      strStarts "CVE-" (pyUpper s) = false →
      find_cve_file fs s source = (none, []) := by
    intro fs s source h
    unfold find_cve_file idNorm
    simp [h]
  exact ⟨h1, fun fs => h1 fs "not-a-cve" none (by decide)⟩

/-- Witness for C1's amended theorem at a concrete input. -/
theorem find_cve_file_invalid_reject_witness :
    find_cve_file emptyFS "not-a-cve" none = (none, []) :=
  find_cve_file_invalid_reject.2 emptyFS

/-- C10: resolution is case-insensitive in the queried id — the resolver
uppercases the query before validating and searching, so querying the
uppercased string gives the same result (same location, same filesystem
accesses). -/
theorem find_cve_file_upper_invariant (fs : FS) (s : String)
    (source : Option String) :
    find_cve_file fs (pyUpper s) source = find_cve_file fs s source := by
  unfold find_cve_file
  rw [idNorm_upper]

/-! ### Claims about the resolver's search order and filtering -/

theorem memB_append (l1 l2 : List String) (x : String) :
    memB (l1 ++ l2) x = (memB l1 x || memB l2 x) := by
  induction l1 with
  | nil => simp [memB]
  | cons y ys ih =>
    by_cases h : y = x <;> simp [memB, h, ih]

theorem memB_cons_false {l : List String} {x y : String} :
    memB (y :: l) x = false ↔ y ≠ x ∧ memB l x = false := by
  show (if y = x then true else memB l x) = false ↔ _
  by_cases h : y = x <;> simp [h]

/-- C4: with no source filter the roots are searched in the order `nvd`,
`ubuntu`, `debian`, `ghsa`, then the version-keyed roots, first match
winning with no later root inspected: an existing `nvd` file is returned
after exactly its own existence probe, and when only the `ubuntu` file
exists the trace is exactly the `nvd` probe followed by the `ubuntu`
probe. -/
theorem find_cve_file_first_match :
    (∀ (fs : FS) (raw cveId year : String),
        idNorm raw = some (cveId, year) →
        (slookup fs.direct ("nvd/" ++ year ++ "/" ++ cveId ++ ".json")).isSome = true →
        find_cve_file fs raw none =
          (some ("nvd/" ++ year ++ "/" ++ cveId ++ ".json"),
            [.probe ("nvd/" ++ year ++ "/" ++ cveId ++ ".json")])) ∧
      ∀ (fs : FS) (raw cveId year : String),
        idNorm raw = some (cveId, year) →
        (slookup fs.direct ("nvd/" ++ year ++ "/" ++ cveId ++ ".json")).isSome = false →
        (slookup fs.direct ("ubuntu/" ++ year ++ "/" ++ cveId ++ ".json")).isSome = true →
        find_cve_file fs raw none =
          (some ("ubuntu/" ++ year ++ "/" ++ cveId ++ ".json"),
            [.probe ("nvd/" ++ year ++ "/" ++ cveId ++ ".json"),
             .probe ("ubuntu/" ++ year ++ "/" ++ cveId ++ ".json")]) := by
  constructor
  · intro fs raw cveId year hid hnvd
    unfold find_cve_file
    rw [hid]
    simp [tryDirect, sourceIs, andThen, hnvd]
  · intro fs raw cveId year hid hnvd hub
    unfold find_cve_file
    rw [hid]
    simp [tryDirect, sourceIs, andThen, hnvd, hub]

/-- Witness for C4 at the spec's concrete input. -/
theorem find_cve_file_first_match_witness :
    find_cve_file nvdOnlyFS "CVE-2022-1664" none =
      (some "nvd/2022/CVE-2022-1664.json", [.probe "nvd/2022/CVE-2022-1664.json"]) :=
  find_cve_file_first_match.1 nvdOnlyFS "CVE-2022-1664" "CVE-2022-1664" "2022"
    (by decide) (by decide)

/-- C5: a `"nvd"` source filter confines the search to the single `nvd`
probe (a miss is reported with no other root touched), and a filter that
names no recognized source yields not-found with no filesystem access at
all (and no exception). -/
theorem find_cve_file_source_filter :
    (∀ fs : FS,
        (slookup fs.direct "nvd/2099/CVE-2099-0001.json").isSome = false →
        find_cve_file fs "CVE-2099-0001" (some "nvd") =
          (none, [.probe "nvd/2099/CVE-2099-0001.json"])) ∧
      ∀ (fs : FS) (s name : String),
        memB (["nvd", "ubuntu", "debian", "ghsa"] ++ versionKeyedNames)
          (pyLower name) = false →
        find_cve_file fs s (some name) = (none, []) := by
  constructor
  · intro fs h
    unfold find_cve_file
    rw [show idNorm "CVE-2099-0001" = some ("CVE-2099-0001", "2099") from by decide]
    unfold tryDirect tryGhsa tryOthers
    rw [show sourceIs (some "nvd") "nvd" = true from by decide,
      show sourceIs (some "nvd") "ubuntu" = false from by decide,
      show sourceIs (some "nvd") "debian" = false from by decide,
      show sourceIs (some "nvd") "ghsa" = false from by decide]
    simp [andThen, h, show memB versionKeyedNames (pyLower "nvd") = false from by decide]
  · intro fs s name h
    rw [memB_append, Bool.or_eq_false_iff] at h
    obtain ⟨h4, hvk⟩ := h
    rw [memB_cons_false, memB_cons_false, memB_cons_false, memB_cons_false] at h4
    obtain ⟨hn, hu, hd, hg, -⟩ := h4
    have hsn : sourceIs (some name) "nvd" = false := by
      simp [sourceIs]; exact fun hc => hn hc.symm
    have hsu : sourceIs (some name) "ubuntu" = false := by
      simp [sourceIs]; exact fun hc => hu hc.symm
    have hsd : sourceIs (some name) "debian" = false := by
      simp [sourceIs]; exact fun hc => hd hc.symm
    have hsg : sourceIs (some name) "ghsa" = false := by
      simp [sourceIs]; exact fun hc => hg hc.symm
    cases hi : idNorm s with
    | none => simp [find_cve_file, hi]
    | some pair =>
      obtain ⟨cveId, year⟩ := pair
      unfold find_cve_file
      rw [hi]
      simp [tryDirect, tryGhsa, tryOthers, andThen, hsn, hsu, hsd, hsg, hvk]

/-- Witness for C5: both conjuncts at concrete inputs (the empty
filesystem and the unrecognized source name `"bogus"`). -/
theorem find_cve_file_source_filter_witness :
    find_cve_file emptyFS "CVE-2099-0001" (some "nvd") =
        (none, [.probe "nvd/2099/CVE-2099-0001.json"]) ∧
      find_cve_file emptyFS "CVE-2022-1664" (some "bogus") = (none, []) :=
  ⟨find_cve_file_source_filter.1 emptyFS (by decide),
    find_cve_file_source_filter.2 emptyFS "CVE-2022-1664" "bogus" (by decide)⟩

/-! ### Claim about advisory-nested (GHSA) matching -/

/-- C6: a GHSA file matches the queried id exactly when some entry of its
`Advisory.Identifiers` list has type `"CVE"` and value equal to the id;
with only such a root present, resolving that id with no filter returns
that file's path. -/
theorem find_cve_file_ghsa_match :
    (∀ (d : JsonData) (cveId : String),
        ghsaFileMatch d cveId = true ↔
          ∃ i ∈ d.identifiers.getD [], i.typ = some "CVE" ∧ i.val = some cveId) ∧
      (find_cve_file ghsaOnlyFS "CVE-2021-9999" none).1 =
        some "ghsa/npm/GHSA-abcd.json" := by
  constructor
  · intro d cveId
    cases hid : d.identifiers with
    | none => simp [ghsaFileMatch, hid]
    | some ids => simp [ghsaFileMatch, hid, List.any_eq_true]
  · decide

/-- Witness for C6's matching characterization at a concrete advisory. -/
theorem find_cve_file_ghsa_match_witness :
    ghsaFileMatch ⟨some [⟨some "CVE", some "CVE-2021-9999"⟩], none⟩ "CVE-2021-9999" = true :=
  (find_cve_file_ghsa_match.1 _ _).mpr (by decide)

/-! ### Claim about the record loader's provenance label -/

/-- C9: on a successful load the loader pairs the parsed record with the
label `sourceLabel` of the resolved path; the label is chosen by testing
the known source names against the path in a fixed order with `nvd`
first (`nvd` present ⟹ the NVD label; `nvd` absent and `ghsa` present ⟹
the GHSA label, whatever else matches), and a path matching no known
source name gets `"Unknown Source"`. -/
theorem get_cve_info_provenance :
    (∀ (fs : FS) (cveId : String) (source : Option String) (fp : String) (d : JsonData),
        (find_cve_file fs cveId source).1 = some fp →
        fsReadJson fs fp = some (some d) →
        get_cve_info fs cveId source = some (d, sourceLabel fp)) ∧
      (∀ fp, containsSub fp "nvd" = true →
        sourceLabel fp = "NVD (National Vulnerability Database)") ∧
      (∀ fp, containsSub fp "nvd" = false → containsSub fp "ghsa" = true →
        sourceLabel fp = "GHSA (GitHub Security Advisory)") ∧
      ∀ fp,
        (∀ n ∈ ["nvd", "ghsa", "alpine", "debian", "ubuntu", "amazon",
            "oracle", "photon", "redhat", "suse"], containsSub fp n = false) →
        sourceLabel fp = "Unknown Source" := by
  refine ⟨?_, ?_, ?_, ?_⟩
  · intro fs cveId source fp d hfind hread
    simp [get_cve_info, hfind, hread]
  · intro fp h
    simp [sourceLabel, h]
  · intro fp h1 h2
    simp [sourceLabel, h1, h2]
  · intro fp h
    have hn := h "nvd" (by simp)
    have hg := h "ghsa" (by simp)
    have hal := h "alpine" (by simp)
    have hde := h "debian" (by simp)
    have hub := h "ubuntu" (by simp)
    have ham := h "amazon" (by simp)
    have hor := h "oracle" (by simp)
    have hph := h "photon" (by simp)
    have hrh := h "redhat" (by simp)
    have hsu := h "suse" (by simp)
    simp [sourceLabel, hn, hg, hal, hde, hub, ham, hor, hph, hrh, hsu]

/-- Witness for C9 at a concrete path. -/
theorem get_cve_info_provenance_witness :
    sourceLabel "nvd/2022/CVE-2022-1664.json" = "NVD (National Vulnerability Database)" :=
  get_cve_info_provenance.2.1 "nvd/2022/CVE-2022-1664.json" (by decide)

/-! ### Writer lemmas -/

theorem memB_cons_self (l : List String) (p : String) : memB (p :: l) p = true := by
  show (if p = p then true else memB l p) = true
  simp

theorem memB_cons_of {l : List String} {p : String} (y : String)
    (h : memB l p = true) : memB (y :: l) p = true := by
  show (if y = p then true else memB l p) = true
  rw [h]
  simp

theorem memB_cons_ne {y p : String} (l : List String) (h : ¬ y = p) :
    memB (y :: l) p = memB l p := by
  show (if y = p then true else memB l p) = memB l p
  simp [h]

theorem slookup_fsWrite (fs : List (String × String)) (p c q : String) :
    slookup (fsWrite fs p c) q = if p = q then some c else slookup fs q := by
  induction fs with
  | nil => simp [fsWrite, slookup]
  | cons kv rest ih =>
    obtain ⟨k, v⟩ := kv
    by_cases hkp : k = p
    · subst hkp
      by_cases hkq : k = q <;> simp [fsWrite, slookup, hkq]
    · by_cases hkq : k = q
      · subst hkq
        have hpq : ¬ p = k := fun h => hkp h.symm
        simp [fsWrite, slookup, hkp, hpq]
      · simp only [fsWrite, slookup, if_neg hkp, if_neg hkq]
        exact ih

theorem processEntry_skip (b : String) (st : WState) (e : Entry) (fp : String)
    (hp : entryPath b e = some fp) (hmem : memB st.createdFiles fp = true) :
    processEntry b st e = st := by
  simp [processEntry, hp, hmem]

theorem processEntry_keeps (b : String) (st : WState) (e : Entry) (p : String)
    (hmem : memB st.createdFiles p = true) :
    slookup (processEntry b st e).fs p = slookup st.fs p ∧
      memB (processEntry b st e).createdFiles p = true := by
  cases hp : entryPath b e with
  | none => simp [processEntry, hp, hmem]
  | some fp =>
    cases hm2 : memB st.createdFiles fp with
    | true => simp [processEntry, hp, hm2, hmem]
    | false =>
      have hne : ¬ fp = p := by
        intro h
        rw [h, hmem] at hm2
        cases hm2
      cases hl : slookup st.fs fp with
      | some existing =>
        by_cases hce : existing = jsonDumps e
        · simp [processEntry, hp, hm2, hl, hce, memB_cons_of _ hmem]
        · simp [processEntry, hp, hm2, hl, hce, slookup_fsWrite, hne,
            memB_cons_of _ hmem]
      | none =>
        simp [processEntry, hp, hm2, hl, slookup_fsWrite, hne, memB_cons_of _ hmem]

theorem foldl_keeps (b : String) (data : List Entry) :
    ∀ (st : WState) (p : String),
      memB st.createdFiles p = true →
      slookup (List.foldl (processEntry b) st data).fs p = slookup st.fs p ∧
        memB (List.foldl (processEntry b) st data).createdFiles p = true := by
  induction data with
  | nil => intro st p h; exact ⟨rfl, h⟩
  | cons e rest ih =>
    intro st p h
    have hk := processEntry_keeps b st e p h
    simp only [List.foldl_cons]
    obtain ⟨h1, h2⟩ := ih (processEntry b st e) p hk.2
    exact ⟨h1.trans hk.1, h2⟩

theorem foldl_sets_content (b p : String) (data : List Entry) :
    ∀ (st : WState) (e : Entry),
      memB st.createdFiles p = false →
      firstWithPath b p data = some e →
      slookup (List.foldl (processEntry b) st data).fs p = some (jsonDumps e) := by
  induction data with
  | nil => intro st e _ hf; simp [firstWithPath] at hf
  | cons e0 rest ih =>
    intro st e hmem hf
    by_cases hp : entryPath b e0 = some p
    · have he : e = e0 := by
        simp only [firstWithPath, if_pos hp] at hf
        exact (Option.some.injEq _ _ ▸ hf).symm
      subst he
      simp only [List.foldl_cons]
      cases hl : slookup st.fs p with
      | some existing =>
        by_cases hce : existing = jsonDumps e
        · have hst' : processEntry b st e =
              ⟨p :: st.createdFiles, st.fileCount, st.unchangedCount + 1, st.fs⟩ := by
            simp [processEntry, hp, hmem, hl, hce]
          rw [hst']
          have hk := foldl_keeps b rest
            ⟨p :: st.createdFiles, st.fileCount, st.unchangedCount + 1, st.fs⟩ p
            (memB_cons_self _ _)
          rw [hk.1]
          show slookup st.fs p = some (jsonDumps e)
          rw [hl, hce]
        · have hst' : processEntry b st e =
              ⟨p :: st.createdFiles, st.fileCount + 1, st.unchangedCount,
                fsWrite st.fs p (jsonDumps e)⟩ := by
            simp [processEntry, hp, hmem, hl, hce]
          rw [hst']
          have hk := foldl_keeps b rest
            ⟨p :: st.createdFiles, st.fileCount + 1, st.unchangedCount,
              fsWrite st.fs p (jsonDumps e)⟩ p (memB_cons_self _ _)
          rw [hk.1]
          show slookup (fsWrite st.fs p (jsonDumps e)) p = some (jsonDumps e)
          rw [slookup_fsWrite]
          simp
      | none =>
        have hst' : processEntry b st e =
            ⟨p :: st.createdFiles, st.fileCount + 1, st.unchangedCount,
              fsWrite st.fs p (jsonDumps e)⟩ := by
          simp [processEntry, hp, hmem, hl]
        rw [hst']
        have hk := foldl_keeps b rest
          ⟨p :: st.createdFiles, st.fileCount + 1, st.unchangedCount,
            fsWrite st.fs p (jsonDumps e)⟩ p (memB_cons_self _ _)
        rw [hk.1]
        show slookup (fsWrite st.fs p (jsonDumps e)) p = some (jsonDumps e)
        rw [slookup_fsWrite]
        simp
    · have hf' : firstWithPath b p rest = some e := by
        simpa only [firstWithPath, if_neg hp] using hf
      have hmem' : memB (processEntry b st e0).createdFiles p = false := by
        cases hq : entryPath b e0 with
        | none => simpa [processEntry, hq] using hmem
        | some fp =>
          have hfp : ¬ fp = p := fun h => hp (by rw [hq, h])
          cases hm2 : memB st.createdFiles fp with
          | true => simpa [processEntry, hq, hm2] using hmem
          | false =>
            cases hl : slookup st.fs fp with
            | some existing =>
              by_cases hce : existing = jsonDumps e0 <;>
                simp [processEntry, hq, hm2, hl, hce, memB_cons_ne _ hfp, hmem]
            | none =>
              simp [processEntry, hq, hm2, hl, memB_cons_ne _ hfp, hmem]
      simp only [List.foldl_cons]
      exact ih (processEntry b st e0) e hmem' hf'

theorem foldl_noop (b : String) (data : List Entry) :
    ∀ st : WState,
      (∀ p e, firstWithPath b p data = some e →
        memB st.createdFiles p = true ∨ slookup st.fs p = some (jsonDumps e)) →
      (List.foldl (processEntry b) st data).fs = st.fs ∧
        (List.foldl (processEntry b) st data).fileCount = st.fileCount := by
  induction data with
  | nil => intro st _; exact ⟨rfl, rfl⟩
  | cons e0 rest ih =>
    intro st H
    simp only [List.foldl_cons]
    cases hq : entryPath b e0 with
    | none =>
      have hst : processEntry b st e0 = st := by simp [processEntry, hq]
      rw [hst]
      apply ih
      intro p e hf
      apply H
      have : ¬ entryPath b e0 = some p := by rw [hq]; intro hcc; cases hcc
      simp [firstWithPath, this, hf]
    | some fp =>
      cases hm : memB st.createdFiles fp with
      | true =>
        have hst : processEntry b st e0 = st := processEntry_skip b st e0 fp hq hm
        rw [hst]
        apply ih
        intro p e hf
        by_cases hpf : p = fp
        · subst hpf
          exact Or.inl hm
        · apply H
          have : ¬ entryPath b e0 = some p := by
            rw [hq]
            intro hcc
            injection hcc with h
            exact hpf h.symm
          simp [firstWithPath, this, hf]
      | false =>
        have hfirst : firstWithPath b fp (e0 :: rest) = some e0 := by
          simp [firstWithPath, hq]
        have hcontent : slookup st.fs fp = some (jsonDumps e0) := by
          rcases H fp e0 hfirst with hl | hr
          · rw [hm] at hl; cases hl
          · exact hr
        have hst : processEntry b st e0 =
            { st with createdFiles := fp :: st.createdFiles,
                      unchangedCount := st.unchangedCount + 1 } := by
          simp [processEntry, hq, hm, hcontent]
        rw [hst]
        have hrest := ih
          { st with createdFiles := fp :: st.createdFiles,
                    unchangedCount := st.unchangedCount + 1 }
          (by
            intro p e hf
            by_cases hpf : p = fp
            · subst hpf
              exact Or.inl (memB_cons_self _ _)
            · have hne : ¬ entryPath b e0 = some p := by
                rw [hq]
                intro hcc
                injection hcc with h
                exact hpf h.symm
              rcases H p e (by simp [firstWithPath, hne, hf]) with hl | hr
              · exact Or.inl (memB_cons_of _ hl)
              · exact Or.inr hr)
        exact hrest

/-! ### Claims about the idempotent writer -/

/-- C7: a row whose file already holds exactly the new serialization is
counted as unchanged and not written (the filesystem and `file_count` are
untouched, the path only joins the in-batch set); consequently a second
`create_json_files` run over the same data produces `file_count = 0` and
leaves every file byte-identical. -/
theorem create_json_files_idempotent :
    (∀ (baseDir : String) (st : WState) (e : Entry) (fp : String),
        entryPath baseDir e = some fp →
        memB st.createdFiles fp = false →
        slookup st.fs fp = some (jsonDumps e) →
        processEntry baseDir st e =
          { st with createdFiles := fp :: st.createdFiles,
                    unchangedCount := st.unchangedCount + 1 }) ∧
      ∀ (data : List Entry) (baseDir : String) (fs0 : List (String × String)),
        (create_json_files data baseDir
            (create_json_files data baseDir fs0).fs).fileCount = 0 ∧
          (create_json_files data baseDir
              (create_json_files data baseDir fs0).fs).fs =
            (create_json_files data baseDir fs0).fs := by
  constructor
  · intro b st e fp hp hm hc
    simp [processEntry, hp, hm, hc]
  · intro data b fs0
    have hnoop := foldl_noop b data ⟨[], 0, 0, (create_json_files data b fs0).fs⟩
      (by
        intro p e hf
        exact Or.inr (foldl_sets_content b p data ⟨[], 0, 0, fs0⟩ e rfl hf))
    exact ⟨hnoop.2, hnoop.1⟩

/-- Witness for C7's per-record conjunct at a concrete row and
filesystem. -/
theorem create_json_files_idempotent_witness :
    processEntry "."
        ⟨[], 0, 0,
          [("./tuxcare/AlmaLinux/9.2/ESU/2025/CVE-2025-0001.json", jsonDumps sampleRow)]⟩
        sampleRow =
      ⟨["./tuxcare/AlmaLinux/9.2/ESU/2025/CVE-2025-0001.json"], 0, 1,
        [("./tuxcare/AlmaLinux/9.2/ESU/2025/CVE-2025-0001.json", jsonDumps sampleRow)]⟩ :=
  create_json_files_idempotent.1 "." _ sampleRow
    "./tuxcare/AlmaLinux/9.2/ESU/2025/CVE-2025-0001.json"
    (by decide) rfl (by simp [slookup])

/-- C8: a path already in the in-batch `created_files` set makes the
writer skip the row entirely — no write, neither counter moves — so two
rows of one batch with the same canonical path yield at most one created
file. -/
theorem create_json_files_batch_dedup :
    (∀ (baseDir : String) (st : WState) (e : Entry) (fp : String),
        entryPath baseDir e = some fp → memB st.createdFiles fp = true →
        processEntry baseDir st e = st) ∧
      ∀ (baseDir : String) (fs0 : List (String × String)) (e1 e2 : Entry)
        (p : String),
        entryPath baseDir e1 = some p → entryPath baseDir e2 = some p →
        (create_json_files [e1, e2] baseDir fs0).fileCount ≤ 1 := by
  constructor
  · exact fun b st e fp hp hm => processEntry_skip b st e fp hp hm
  · intro b fs0 e1 e2 p h1 h2
    have hstep1 : memB (processEntry b ⟨[], 0, 0, fs0⟩ e1).createdFiles p = true ∧
        (processEntry b ⟨[], 0, 0, fs0⟩ e1).fileCount ≤ 1 := by
      cases hl : slookup fs0 p with
      | some existing =>
        by_cases hce : existing = jsonDumps e1 <;>
          simp [processEntry, h1, hl, hce, memB, memB_cons_self]
      | none => simp [processEntry, h1, hl, memB, memB_cons_self]
    have hstep2 := processEntry_skip b (processEntry b ⟨[], 0, 0, fs0⟩ e1) e2 p h2 hstep1.1
    show (processEntry b (processEntry b ⟨[], 0, 0, fs0⟩ e1) e2).fileCount ≤ 1
    rw [hstep2]
    exact hstep1.2

/-- Witness for C8 at two concrete rows sharing one canonical path. -/
theorem create_json_files_batch_dedup_witness :
    (create_json_files [sampleRow, sampleRow2] "." []).fileCount ≤ 1 :=
  create_json_files_batch_dedup.2 "." [] sampleRow sampleRow2
    "./tuxcare/AlmaLinux/9.2/ESU/2025/CVE-2025-0001.json" (by decide) (by decide)

end VulnList
